import Mathlib

/-!
Verification development for the PEX evaluation pipeline: a shallow embedding of
the URI Evaluation Handler (src/lib/evaluation/handlers/uriEvaluationHandler.ts)
and the Limit Disclosure Evaluation Handler, together with theorems about the
properties stated in the design document.

Modelling conventions:
- JavaScript `undefined` values that flow into the URI list are modelled with
  `Option String` (`none` = undefined).
- The constructors of `CtxField`, `SchemaField` and `TypeField` represent the
  value classes that the handler's `Array.isArray`/truthiness tests distinguish:
  `absent` stands for any falsy value (undefined/null/empty string), `arr` for
  any array (arrays are truthy in JavaScript, including the empty array) and the
  remaining constructor for a truthy non-array value.
- The addressing string `$.input_descriptors[i]` stored in a result is
  represented by its index `i` (field `input_descriptor_idx`); resolving it with
  the JSONPath engine against the definition is `resolveInputDescriptorPath`.
- The credential addressing strings (`$[j]`, `$.verifiableCredential[j]`) are
  kept as literal strings, as they are only ever copied around.
- `nanoid()` is modelled by an explicit `freshId` argument to `uriHandle`.
-/

set_option maxHeartbeats 1000000

namespace Pex

/-- Result status of an evaluation check (ConstraintUtils.Status). -/
inductive Status where
  | info
  | warn
  | error
  deriving DecidableEq, Repr

/-- Version of a presentation definition (PEVersion). -/
inductive PEVersion where
  | v1
  | v2
  deriving DecidableEq, Repr

/-- One entry of an input descriptor's `schema` list: a declared URI. -/
structure SchemaObj where
  uri : String
  deriving DecidableEq, Repr

/-- A field constraint: its ordered list of candidate path expressions. -/
structure Field where
  path : List String
  deriving DecidableEq, Repr

/-- The `limit_disclosure` optionality values. -/
inductive Optionality where
  | required
  | preferred
  deriving DecidableEq, Repr

/-- Constraints of an input descriptor (the parts the handlers read). -/
structure Constraints where
  limit_disclosure : Option Optionality
  fields : List Field
  deriving DecidableEq, Repr

/-- An input descriptor (v1 shape: id, schema list, optional constraints). -/
structure InputDescriptor where
  id : String
  schema : List SchemaObj
  constraints : Option Constraints
  deriving DecidableEq, Repr

/-- A presentation definition: id, version and ordered input descriptors. -/
structure PresentationDefinition where
  id : String
  version : PEVersion
  input_descriptors : List InputDescriptor
  deriving DecidableEq, Repr

/-- A `credentialSchema` entry; its `id` may be undefined (`none`). -/
structure ICredentialSchema where
  id : Option String
  deriving DecidableEq, Repr

/-- The credential's `@context` value as the handler's `Array.isArray` test sees
it: an array of values, or a single (possibly undefined) value. There is no
truthiness test on `@context` in the source, so the undefined single value is
representable as `val none`. -/
inductive CtxField where
  | arr : List String → CtxField
  | val : Option String → CtxField
  deriving DecidableEq, Repr

/-- The credential's `credentialSchema` value: an array (truthy even when
empty), a truthy non-array object, or a falsy value (absent). -/
inductive SchemaField where
  | arr : List ICredentialSchema → SchemaField
  | obj : ICredentialSchema → SchemaField
  | absent : SchemaField
  deriving DecidableEq, Repr

/-- The credential's `type` value: an array, a truthy string, or a falsy value
(absent). -/
inductive TypeField where
  | arr : List String → TypeField
  | str : String → TypeField
  | absent : TypeField
  deriving DecidableEq, Repr

/-- The part of a wrapped verifiable credential that the URI Evaluation Handler
reads (`wvc.credential`). -/
structure Credential where
  context : CtxField
  credentialSchema : SchemaField
  type : TypeField
  deriving DecidableEq, Repr

/-- A path segment as returned by the JSONPath engine inside a resolved path:
a string object key or a numeric array index (mirrors the
`typeof pathDetails[i] === 'string'` tests of the Limit Disclosure Handler). -/
inductive Seg where
  | str : String → Seg
  | num : Nat → Seg
  deriving DecidableEq, Repr

/-- Diagnostic payload of a handler result (handler-defined shape). -/
inductive Payload where
  | empty
  | uriPayload : CtxField → SchemaField → List String → Payload
  | msg : String → Payload
  | pathDetails : List Seg → Payload
  | pathExprs : List String → Payload
  deriving DecidableEq, Repr

/-- One entry of the evaluation result log (HandlerCheckResult). -/
structure HandlerCheckResult where
  input_descriptor_idx : Nat
  verifiable_credential_path : String
  evaluator : String
  status : Status
  message : Option String
  payload : Payload
  deriving DecidableEq, Repr

/-- Modelled from the spec: src/lib/types/Messages is not included under src/.
Per the spec, INFO results of the URI handler carry a passed message. Only the
identity of the constant matters to the claims. -/
def PexMessages.URI_EVALUATION_PASSED : String :=
  "URI evaluation passed"

/-- Modelled from the spec: src/lib/types/Messages is not included under src/.
Per the spec, ERROR results of the URI handler carry a did-not-pass message.
Only the identity of the constant matters to the claims. -/
def PexMessages.URI_EVALUATION_DIDNT_PASS : String :=
  "URI evaluation did not pass"

/-- Modelled from the spec: src/lib/types/Messages is not included under src/.
Per the spec, the hashlink diagnostic says that hashlink verification is not
supported. Only the identity of the constant matters to the claims. -/
def PexMessages.INPUT_DESCRIPTOR_CONTEXT_CONTAINS_HASHLINK_VERIFICATION_NOT_SUPPORTED : String :=
  "input descriptor context contains hashlink but hashlink verification is not supported"

/-- One `descriptor_map` entry of a presentation submission. -/
structure Descriptor where
  id : String
  format : String
  path : String
  deriving DecidableEq, Repr

/-- A presentation submission. -/
structure PresentationSubmission where
  id : String
  definition_id : String
  descriptor_map : List Descriptor
  deriving DecidableEq, Repr

/-- ASCII alphanumeric character class `[a-zA-Z0-9]` of the hashlink regexes. -/
def isAlphaNumChar (c : Char) : Bool := c.isAlpha || c.isDigit

/-- All suffixes of a character list, longest first: the candidate starting
positions of an unanchored regex search. -/
def charSuffixes : List Char → List (List Char)
  | [] => [[]]
  | c :: rest => (c :: rest) :: charSuffixes rest

/-- Whether `HASHLINK_URL_ENCODED_REGEX = hl:[a-zA-Z0-9]+:[a-zA-Z0-9]+` matches
at the start of the given character list. The `+`-repetitions are over a class
disjoint from `:`, so greedy munching is exact. -/
def encodedHashlinkAt : List Char → Bool
  | 'h' :: 'l' :: ':' :: rest =>
      let tok := rest.takeWhile isAlphaNumChar
      let rest2 := rest.dropWhile isAlphaNumChar
      !tok.isEmpty &&
        (match rest2 with
          | ':' :: c :: _ => isAlphaNumChar c
          | _ => false)
  | _ => false

/-- Whether `HASHLINK_URL_ENCODED_REGEX` matches anywhere in the string. -/
def containsEncodedHashlink (s : String) : Bool :=
  (charSuffixes s.data).any encodedHashlinkAt

/-- Character class `[-a-zA-Z0-9@:%._+~#=]` (domain part of
`HASHLINK_QUERY_URL_REGEX`). -/
def isClassAChar (c : Char) : Bool :=
  isAlphaNumChar c || c == '-' || c == '@' || c == ':' || c == '%' || c == '.' ||
    c == '_' || c == '+' || c == '~' || c == '#' || c == '='

/-- Character class `[a-zA-Z0-9()]` (top-level-domain part of
`HASHLINK_QUERY_URL_REGEX`). -/
def isClassBChar (c : Char) : Bool :=
  isAlphaNumChar c || c == '(' || c == ')'

/-- Character class `[-a-zA-Z0-9()@:%_+.~#?&/=]` (path/query part of
`HASHLINK_QUERY_URL_REGEX`). -/
def isClassCChar (c : Char) : Bool :=
  isAlphaNumChar c || c == '-' || c == '(' || c == ')' || c == '@' || c == ':' ||
    c == '%' || c == '_' || c == '+' || c == '.' || c == '~' || c == '#' ||
    c == '?' || c == '&' || c == '/' || c == '='

/-- JavaScript regex word character (`\w`), used by the `\b` word boundary. -/
def isWordChar (c : Char) : Bool := isAlphaNumChar c || c == '_'

/-- Whether `([-a-zA-Z0-9()@:%_+.~#?&/=]*)(hl=[a-zA-Z0-9]+)` matches a prefix of
the given list: some split point `k` with class-C characters before it and a
literal `hl=` followed by at least one alphanumeric character after it. -/
def queryTailMatches (r : List Char) : Bool :=
  (List.range (r.length + 1)).any fun k =>
    ((r.take k).all isClassCChar) &&
      (match r.drop k with
        | 'h' :: 'l' :: '=' :: c :: _ => isAlphaNumChar c
        | _ => false)

/-- Whether `[a-zA-Z0-9()]{1,6}\b` followed by the query tail matches a prefix
of the given list: 1 to 6 class-B characters, a word boundary, then
`queryTailMatches`. -/
def queryTldMatches (r : List Char) : Bool :=
  (List.range 6).any fun m0 =>
    let m := m0 + 1
    decide (m ≤ r.length) && ((r.take m).all isClassBChar) &&
      (let rest := r.drop m
       let nextIsWord := match rest with
         | [] => false
         | c :: _ => isWordChar c
       (isWordChar ((r.take m).getLastD ' ') != nextIsWord) && queryTailMatches rest)

/-- Whether `[-a-zA-Z0-9@:%._+~#=]{1,256}\.` followed by the TLD part matches a
prefix of the given list: some 1 ≤ n ≤ 256 class-A characters, a literal dot,
then `queryTldMatches`. -/
def queryDomainMatches (r : List Char) : Bool :=
  (List.range (min 256 r.length)).any fun n0 =>
    let n := n0 + 1
    ((r.take n).all isClassAChar) &&
      (match r.drop n with
        | '.' :: rest => queryTldMatches rest
        | _ => false)

/-- Whether `HASHLINK_QUERY_URL_REGEX` matches at the start of the given list:
`http`, lazily repeated `s`, `://`, an optional `www.`, then the domain part.
The lazy `s*?` is followed by `:`, so the munch of `s` characters is exact. -/
def queryHashlinkAt : List Char → Bool
  | 'h' :: 't' :: 't' :: 'p' :: r =>
      (match r.dropWhile (fun c => c == 's') with
        | ':' :: '/' :: '/' :: r3 =>
            queryDomainMatches r3 ||
              (match r3 with
                | 'w' :: 'w' :: 'w' :: '.' :: r4 => queryDomainMatches r4
                | _ => false)
        | _ => false)
  | _ => false

/-- Whether `HASHLINK_QUERY_URL_REGEX` matches anywhere in the string. -/
def containsQueryHashlink (s : String) : Bool :=
  (charSuffixes s.data).any queryHashlinkAt

/-- UriEvaluationHandler.containsHashlink: true when either hashlink regex has
a match in the url (the source negates the conjunction of both iterators being
done). -/
def containsHashlink (url : String) : Bool :=
  containsQueryHashlink url || containsEncodedHashlink url

/-- UriEvaluationHandler.createResult: the common result skeleton for the pair
(descriptor `idIdx`, credential `vcIdx`). -/
def createResult (idIdx vcIdx : Nat) : HandlerCheckResult :=
  { input_descriptor_idx := idIdx,
    verifiable_credential_path := "$[" ++ toString vcIdx ++ "]",
    evaluator := "UriEvaluation",
    status := Status.info,
    message := none,
    payload := Payload.empty }

/-- UriEvaluationHandler.createSuccessResultObject. -/
def createSuccessResultObject (wvc : Credential) (inputDescriptorsUris : List String)
    (idIdx vcIdx : Nat) : HandlerCheckResult :=
  { createResult idIdx vcIdx with
    status := Status.info,
    message := some PexMessages.URI_EVALUATION_PASSED,
    payload := Payload.uriPayload wvc.context wvc.credentialSchema inputDescriptorsUris }

/-- UriEvaluationHandler.createErrorResultObject. -/
def createErrorResultObject (wvc : Credential) (inputDescriptorsUris : List String)
    (idIdx vcIdx : Nat) : HandlerCheckResult :=
  { createResult idIdx vcIdx with
    status := Status.error,
    message := some PexMessages.URI_EVALUATION_DIDNT_PASS,
    payload := Payload.uriPayload wvc.context wvc.credentialSchema inputDescriptorsUris }

/-- UriEvaluationHandler.createWarnResultObject. Note that the source stores the
hashlink text in the payload and the did-not-pass constant in the message. -/
def createWarnResultObject (idIdx vcIdx : Nat) : HandlerCheckResult :=
  { createResult idIdx vcIdx with
    status := Status.warn,
    message := some PexMessages.URI_EVALUATION_DIDNT_PASS,
    payload := Payload.msg
      PexMessages.INPUT_DESCRIPTOR_CONTEXT_CONTAINS_HASHLINK_VERIFICATION_NOT_SUPPORTED }

/-- UriEvaluationHandler.buildVcContextAndSchemaUris, mirroring the three
sequential push blocks of the source. In the `credentialSchema` array case with
length 0 the `else if (credential.credentialSchema)` branch is taken (an empty
array is truthy) and `([]).id`, i.e. undefined, is pushed. -/
def buildVcContextAndSchemaUris (credential : Credential) : List (Option String) :=
  let uris : List (Option String) := []
  let uris := match credential.context with
    | CtxField.arr values => uris ++ values.map some
    | CtxField.val v => uris ++ [v]
  let uris := match credential.credentialSchema with
    | SchemaField.arr l =>
        if 0 < l.length then uris ++ l.map (fun e => e.id) else uris ++ [none]
    | SchemaField.obj s => uris ++ [s.id]
    | SchemaField.absent => uris
  let uris := match credential.type with
    | TypeField.arr l => uris ++ l.map some
    | TypeField.str s => uris ++ [some s]
    | TypeField.absent => uris
  uris

/-- UriEvaluationHandler.evaluateUris: the list of results the call pushes for
one (descriptor, credential) pair, in push order (all hashlink WARNs, then the
single INFO/ERROR match result). For v2 the match is unconditional. -/
def evaluateUris (wvc : Credential) (verifiableCredentialUris : List (Option String))
    (inputDescriptorsUris : List String) (idIdx vcIdx : Nat) (pdVersion : PEVersion) :
    List HandlerCheckResult :=
  if pdVersion = PEVersion.v1 then
    (inputDescriptorsUris.filter containsHashlink).map
        (fun _ => createWarnResultObject idIdx vcIdx) ++
      (if verifiableCredentialUris.any
            (fun u => inputDescriptorsUris.any (fun el => u == some el)) then
        [createSuccessResultObject wvc inputDescriptorsUris idIdx vcIdx]
      else
        [createErrorResultObject wvc inputDescriptorsUris idIdx vcIdx])
  else
    [createSuccessResultObject wvc inputDescriptorsUris idIdx vcIdx]

/-- The descriptor-declared URIs passed to `evaluateUris`:
`d.getVersion() !== PEVersion.v2 ? inDesc.schema.map(so => so.uri) : []`. -/
def descriptorUris (v : PEVersion) (inDesc : InputDescriptor) : List String :=
  if v ≠ PEVersion.v2 then inDesc.schema.map SchemaObj.uri else []

/-- The results pushed for the pair (descriptor `i`, credential `j`) by the
handler's nested forEach loops. -/
def uriPairResults (v : PEVersion) (inDesc : InputDescriptor) (wvc : Credential)
    (i j : Nat) : List HandlerCheckResult :=
  evaluateUris wvc (buildVcContextAndSchemaUris wvc) (descriptorUris v inDesc) i j v

/-- Inner forEach of UriEvaluationHandler.handle: all results for one descriptor
at index `i` against the credentials starting at index `j`. -/
def pairResultsOverVcs (v : PEVersion) (inDesc : InputDescriptor) :
    List Credential → Nat → Nat → List HandlerCheckResult
  | [], _, _ => []
  | wvc :: rest, i, j =>
      uriPairResults v inDesc wvc i j ++ pairResultsOverVcs v inDesc rest i (j + 1)

/-- Outer forEach of UriEvaluationHandler.handle: all results for the
descriptors starting at index `i` against all credentials. -/
def pairResultsOverDescriptors (v : PEVersion) :
    List InputDescriptor → List Credential → Nat → List HandlerCheckResult
  | [], _, _ => []
  | inDesc :: rest, wvcs, i =>
      pairResultsOverVcs v inDesc wvcs i 0 ++ pairResultsOverDescriptors v rest wvcs (i + 1)

/-- Resolution of the addressing string `$.input_descriptors[idx]` against the
definition (`jp.nodes(d, path)[0].value` in the source). On an out-of-range
index the source would crash reading `[0].value`; the model returns `none`. -/
def resolveInputDescriptorPath (d : PresentationDefinition) (idx : Nat) :
    Option InputDescriptor :=
  d.input_descriptors.get? idx

/-- The mutable state of the evaluation client that the URI handler touches:
the result log and the in-progress submission. -/
structure UriEvalState where
  results : List HandlerCheckResult
  presentationSubmission : Option PresentationSubmission
  deriving DecidableEq, Repr

/-- UriEvaluationHandler.handle: pushes the pair results for every
(descriptor, credential) pair, then rebuilds the submission from the INFO
entries of the entire current result log. `freshId` stands for `nanoid()`. -/
def uriHandle (d : PresentationDefinition) (wrappedVcs : List Credential)
    (freshId : String) (s : UriEvalState) : UriEvalState :=
  let results :=
    s.results ++ pairResultsOverDescriptors d.version d.input_descriptors wrappedVcs 0
  let descriptorMap : List Descriptor :=
    (results.filter (fun e => e.status == Status.info)).map (fun e =>
      { id := ((resolveInputDescriptorPath d e.input_descriptor_idx).map
            InputDescriptor.id).getD "",
        format := "ldp_vc",
        path := e.verifiable_credential_path })
  { results := results,
    presentationSubmission :=
      some { id := freshId, definition_id := d.id, descriptor_map := descriptorMap } }

/-- A JSON-like value of the semi-structured credential documents that the
Limit Disclosure Handler rewrites. `undef` represents JavaScript `undefined`
(distinct from a key being absent from an object). Objects are association
lists in insertion order. -/
inductive JSON where
  | null
  | undef
  | bool : Bool → JSON
  | num : Int → JSON
  | str : String → JSON
  | arr : List JSON → JSON
  | obj : List (String × JSON) → JSON
  deriving Repr

/-- Constructor discriminator for `JSON`, used to separate structurally
different values. -/
def JSON.ctorIdx : JSON → Nat
  | JSON.null => 0
  | JSON.undef => 1
  | JSON.bool _ => 2
  | JSON.num _ => 3
  | JSON.str _ => 4
  | JSON.arr _ => 5
  | JSON.obj _ => 6

/-- Lookup of a string key in an object's association list; an absent key reads
as `undef` (JavaScript property access). -/
def getAssoc : List (String × JSON) → String → JSON
  | [], _ => JSON.undef
  | (k0, v0) :: rest, k => if k0 = k then v0 else getAssoc rest k

/-- Whether a string key is present in an object's association list. -/
def hasKeyAssoc : List (String × JSON) → String → Bool
  | [], _ => false
  | (k0, _) :: rest, k => if k0 = k then true else hasKeyAssoc rest k

/-- JavaScript property write on an object: an existing key keeps its position
and gets the new value, a new key is appended. -/
def setAssoc : List (String × JSON) → String → JSON → List (String × JSON)
  | [], k, v => [(k, v)]
  | (k0, v0) :: rest, k, v =>
      if k0 = k then (k0, v) :: rest else (k0, v0) :: setAssoc rest k v

/-- JavaScript index write on an array: in-range indices are replaced,
out-of-range writes extend the array, with holes reading as `undef`. -/
def setIdx (l : List JSON) (n : Nat) (v : JSON) : List JSON :=
  if n < l.length then l.set n v
  else l ++ List.replicate (n - l.length) JSON.undef ++ [v]

/-- JavaScript read of a path segment from a value: object/string-key and
array/numeric-index are the cases the handler exercises; a numeric key on an
object reads the stringified key; everything else reads as `undef`. -/
def JSON.getSeg : JSON → Seg → JSON
  | JSON.obj l, Seg.str k => getAssoc l k
  | JSON.obj l, Seg.num n => getAssoc l (toString n)
  | JSON.arr l, Seg.num n => (l.get? n).getD JSON.undef
  | _, _ => JSON.undef

/-- JavaScript write of a path segment into a value: object/string-key and
array/numeric-index writes; a numeric key on an object writes the stringified
key; writes into other values are dropped (unreachable on the handler's
JSONPath-derived segments). -/
def JSON.setSeg : JSON → Seg → JSON → JSON
  | JSON.obj l, Seg.str k, v => JSON.obj (setAssoc l k v)
  | JSON.obj l, Seg.num n, v => JSON.obj (setAssoc l (toString n) v)
  | JSON.arr l, Seg.num n, v => JSON.arr (setIdx l n v)
  | j, _, _ => j

/-- Whether an object value carries the given key (key presence, as opposed to
the key reading `undef`). Non-objects carry no keys. -/
def JSON.hasKey : JSON → String → Bool
  | JSON.obj l, k => hasKeyAssoc l k
  | _, _ => false

/-- `Object.keys` of an object value, in insertion order. -/
def JSON.objKeys : JSON → List String
  | JSON.obj l => l.map Prod.fst
  | _ => []

/-- LimitDisclosureEvaluationHandler.mandatoryFields. -/
def mandatoryFields : List String :=
  ["@context", "id", "credentialSchema", "credentialSubject", "type"]

/-- LimitDisclosureEvaluationHandler.copyMandatoryFieldsAndDeletePredefinedKeys:
writes each of the five mandatory keys of the source credential verbatim into
the output object (even when absent from the source, in which case the key is
written carrying `undef`), and removes the first occurrence of each mandatory
key from the `keys` list (Array.splice at indexOf). -/
def copyMandatoryFieldsAndDeletePredefinedKeys (verifiableCredential : JSON)
    (verifiableCredentialToSend : JSON) (keys : List String) : JSON × List String :=
  mandatoryFields.foldl
    (fun acc k => (acc.1.setSeg (Seg.str k) (verifiableCredential.getSeg (Seg.str k)),
                   acc.2.erase k))
    (verifiableCredentialToSend, keys)

/-- The segment walk of
LimitDisclosureEvaluationHandler.copyResultPathToDestinationCredential, starting
after the skipped root marker. The two cursors of the source (into the source
credential and into the growing output) are the two `JSON` arguments; the
in-place mutation through the output cursor becomes recomputation of the
subtree at each segment. For a non-terminal segment the source overwrites the
output position with a fresh container before descending: `{}` when the current
and next segments are both string keys, `[{}]` when the current segment is a
string key and the next is not (descending onto the array itself), and `{}` in
the remaining (numeric current segment) case. -/
def copyResultPathSegs (objectCursor currentCursorInToSendObj : JSON) :
    List Seg → JSON
  | [] => currentCursorInToSendObj
  | [seg] =>
      currentCursorInToSendObj.setSeg seg (objectCursor.getSeg seg)
  | seg :: next :: rest =>
      let oc := objectCursor.getSeg seg
      let container : JSON :=
        match seg, next with
        | Seg.str _, Seg.str _ => JSON.obj []
        | Seg.str _, Seg.num _ => JSON.arr [JSON.obj []]
        | Seg.num _, _ => JSON.obj []
      currentCursorInToSendObj.setSeg seg (copyResultPathSegs oc container (next :: rest))

/-- LimitDisclosureEvaluationHandler.copyResultPathToDestinationCredential
(the pure tree surgery; the success-result push the source performs on entry is
threaded by the caller `determineNecessaryPaths`). The loop starts at index 1,
skipping the leading root-marker segment. -/
def copyResultPathToDestinationCredential (pathDetails : List Seg)
    (verifiableCredential verifiableCredentialToSend : JSON) : JSON :=
  match pathDetails with
  | [] => verifiableCredentialToSend
  | _ :: rest => copyResultPathSegs verifiableCredential verifiableCredentialToSend rest

/-- LimitDisclosureEvaluationHandler.createSuccessResult. -/
def createSuccessResult (idIdx vcIdx : Nat) (pathDetails : List Seg) :
    HandlerCheckResult :=
  { input_descriptor_idx := idIdx,
    verifiable_credential_path := "$.verifiableCredential[" ++ toString vcIdx ++ "]",
    evaluator := "LimitDisclosureEvaluation",
    status := Status.info,
    message := some "added variable in the limit_disclosure to the verifiableCredential",
    payload := Payload.pathDetails pathDetails }

/-- LimitDisclosureEvaluationHandler.createMandatoryFieldNotFoundResult. -/
def createMandatoryFieldNotFoundResult (idIdx vcIdx : Nat) (path : List String) :
    HandlerCheckResult :=
  { input_descriptor_idx := idIdx,
    verifiable_credential_path := "$.verifiableCredential[" ++ toString vcIdx ++ "]",
    evaluator := "LimitDisclosureEvaluation",
    status := Status.error,
    message := some "mandatory field not present in the verifiableCredential",
    payload := Payload.pathExprs path }

/-- LimitDisclosureEvaluationHandler.determineNecessaryPaths. The external path
resolver `JsonPathUtils.extractInputField` (spec: the Path Resolver
collaborator, not part of this core) is a parameter returning the ordered
(path, value) matches of a field's path expressions against a document. For
each field in order: if there is at least one match, its first path is copied
into the output object and an INFO result is recorded; otherwise an ERROR
result is recorded and processing continues with the next field. Returns the
final output object and the results pushed, in order. -/
def determineNecessaryPaths (extractInputField : JSON → List String → List (List Seg × JSON))
    (vc : JSON) (vcToSend : JSON) (fields : List Field) (idIdx vcIdx : Nat) :
    JSON × List HandlerCheckResult :=
  match fields with
  | [] => (vcToSend, [])
  | field :: rest =>
      match extractInputField vc field.path with
      | [] =>
          let r := determineNecessaryPaths extractInputField vc vcToSend rest idIdx vcIdx
          (r.1, createMandatoryFieldNotFoundResult idIdx vcIdx field.path :: r.2)
      | m :: _ =>
          let send2 := copyResultPathToDestinationCredential m.1 vc vcToSend
          let r := determineNecessaryPaths extractInputField vc send2 rest idIdx vcIdx
          (r.1, createSuccessResult idIdx vcIdx m.1 :: r.2)

/-- The in-progress output presentation as the Limit Disclosure Handler sees it
(`this.verifiablePresentation`): its credential list may still be absent, and
it may or may not carry a submission. In the typed model the submission's
`descriptor_map` is always present (pex-models requires it; an array, even
empty, is truthy), so the source's guard
`presentationSubmission && presentationSubmission.descriptor_map` reduces to
the submission being present. -/
structure VerifiablePresentationState where
  verifiableCredential : Option (List JSON)
  presentationSubmission : Option PresentationSubmission
  deriving Repr

/-- LimitDisclosureEvaluationHandler.copyModifiedVerifiableCredentialToExisting:
initializes the output presentation's credential list if absent, then appends
the disclosed object once for every `descriptor_map` entry whose id equals the
current input descriptor's id, in map order. Reading `descriptor_map` with the
submission absent would crash in the source; the caller guards against it and
the model reads an empty map there. -/
def copyModifiedVerifiableCredentialToExisting (vp : VerifiablePresentationState)
    (verifiableCredentialToSend : JSON) (inputDescriptorId : String) :
    VerifiablePresentationState :=
  let creds := match vp.verifiableCredential with
    | none => []
    | some l => l
  let dm := match vp.presentationSubmission with
    | some sub => sub.descriptor_map
    | none => []
  { vp with
    verifiableCredential :=
      some (creds ++ (dm.filter (fun e => e.id == inputDescriptorId)).map
        (fun _ => verifiableCredentialToSend)) }

/-- The mutable state of the evaluation client that the Limit Disclosure
Handler touches: the result log and the in-progress output presentation. -/
structure LdState where
  results : List HandlerCheckResult
  verifiablePresentation : VerifiablePresentationState
  deriving Repr

/-- One iteration of the loop of
LimitDisclosureEvaluationHandler.limitDisclosureShouldBeEnforced: build the
output object for the credential at index `vcIdx` (mandatory fields first, then
the selected field paths), append the produced results to the log, and, when
the output presentation carries a submission (see
`VerifiablePresentationState`), register the disclosed object. -/
def ldProcessCredential (extractInputField : JSON → List String → List (List Seg × JSON))
    (fields : List Field) (idIdx : Nat) (inputDescriptorId : String) (vcIdx : Nat)
    (vc : JSON) (st : LdState) : LdState :=
  let keys := vc.objKeys
  let toSendAndKeys := copyMandatoryFieldsAndDeletePredefinedKeys vc (JSON.obj []) keys
  let sendAndResults :=
    determineNecessaryPaths extractInputField vc toSendAndKeys.1 fields idIdx vcIdx
  let st2 : LdState := { st with results := st.results ++ sendAndResults.2 }
  match st2.verifiablePresentation.presentationSubmission with
  | some _ =>
      { st2 with
        verifiablePresentation :=
          copyModifiedVerifiableCredentialToExisting st2.verifiablePresentation
            sendAndResults.1 inputDescriptorId }
  | none => st2

/-- The loop of limitDisclosureShouldBeEnforced over the input presentation's
credentials, with the running credential index. -/
def ldOverCredentials (extractInputField : JSON → List String → List (List Seg × JSON))
    (fields : List Field) (idIdx : Nat) (inputDescriptorId : String) :
    List JSON → Nat → LdState → LdState
  | [], _, st => st
  | vc :: rest, i, st =>
      ldOverCredentials extractInputField fields idIdx inputDescriptorId rest (i + 1)
        (ldProcessCredential extractInputField fields idIdx inputDescriptorId i vc st)

/-- LimitDisclosureEvaluationHandler.limitDisclosureShouldBeEnforced. -/
def limitDisclosureShouldBeEnforced
    (extractInputField : JSON → List String → List (List Seg × JSON))
    (verifiablePresentationVcs : List JSON) (fields : List Field) (idIdx : Nat)
    (inputDescriptorId : String) (st : LdState) : LdState :=
  ldOverCredentials extractInputField fields idIdx inputDescriptorId
    verifiablePresentationVcs 0 st

/-- The loop of LimitDisclosureEvaluationHandler.handle over the input
descriptors, with the running descriptor index: enforcement runs exactly for
descriptors whose constraints are present with `limit_disclosure === Required`. -/
def ldHandleGo (extractInputField : JSON → List String → List (List Seg × JSON))
    (inputVcs : List JSON) : List InputDescriptor → Nat → LdState → LdState
  | [], _, st => st
  | inDesc :: rest, i, st =>
      let st2 := match inDesc.constraints with
        | some cs =>
            if cs.limit_disclosure = some Optionality.required then
              limitDisclosureShouldBeEnforced extractInputField inputVcs cs.fields i
                inDesc.id st
            else st
        | none => st
      ldHandleGo extractInputField inputVcs rest (i + 1) st2

/-- LimitDisclosureEvaluationHandler.handle. -/
def ldHandle (extractInputField : JSON → List String → List (List Seg × JSON))
    (pd : PresentationDefinition) (inputVcs : List JSON) (st : LdState) : LdState :=
  ldHandleGo extractInputField inputVcs pd.input_descriptors 0 st

/-- Claim-side definition, following the spec's words for the URI extraction
order: the `@context` values (single value flattened). -/
def specContextUris : CtxField → List (Option String)
  | CtxField.arr l => l.map some
  | CtxField.val v => [v]

/-- Claim-side definition, following the spec's words for the URI extraction
order: the id of each `credentialSchema` entry (single object flattened,
skipped if absent). -/
def specSchemaUris : SchemaField → List (Option String)
  | SchemaField.arr l => l.map (fun e => e.id)
  | SchemaField.obj s => [s.id]
  | SchemaField.absent => []

/-- Claim-side definition, following the spec's words for the URI extraction
order: the `type` values (single value flattened). -/
def specTypeUris : TypeField → List (Option String)
  | TypeField.arr l => l.map some
  | TypeField.str s => [some s]
  | TypeField.absent => []

/-- Claim-side definition, following the spec's words: the extracted URI list
is the `@context` values, then the `credentialSchema` ids, then the `type`
values, duplicates retained. -/
def specExtractedUris (c : Credential) : List (Option String) :=
  specContextUris c.context ++ specSchemaUris c.credentialSchema ++ specTypeUris c.type

/-- The schema segment of the extraction as amended: an empty
`credentialSchema` list is not skipped, it contributes a single undefined id
entry (the source's single-object branch applied to the truthy empty array). -/
def specSchemaUrisAmended : SchemaField → List (Option String)
  | SchemaField.arr [] => [none]
  | SchemaField.arr (s :: rest) => (s :: rest).map (fun e => e.id)
  | SchemaField.obj s => [s.id]
  | SchemaField.absent => []

/-- The extraction order as amended: context values, then the amended schema
segment, then type values. -/
def specExtractedUrisAmended (c : Credential) : List (Option String) :=
  specContextUris c.context ++ specSchemaUrisAmended c.credentialSchema ++ specTypeUris c.type

/-- Concrete credential for the C8 counterexample: a single `@context` value
and an empty `credentialSchema` list. -/
def cC8 : Credential :=
  { context := CtxField.val (some "ctx1"),
    credentialSchema := SchemaField.arr [],
    type := TypeField.absent }

/-- Concrete credential for the C10 counterexample: an empty `@context` array
and no schema or type. -/
def cC10 : Credential :=
  { context := CtxField.arr [],
    credentialSchema := SchemaField.absent,
    type := TypeField.absent }

/-- Witness credential for the amended C10 theorem: undefined `@context` and an
empty `credentialSchema` list. -/
def cC10w : Credential :=
  { context := CtxField.val none,
    credentialSchema := SchemaField.arr [],
    type := TypeField.absent }

/-- Concrete descriptor for the C7 counterexample, declaring the encoded
hashlink URI from the spec's test property. -/
def inDescC7 : InputDescriptor :=
  { id := "dC7", schema := [{ uri := "hl:zQmAbc:zQmXyz" }], constraints := none }

/-- Concrete credential for the C7 counterexample. -/
def wvcC7 : Credential :=
  { context := CtxField.val none,
    credentialSchema := SchemaField.absent,
    type := TypeField.absent }

/-- Concrete definition for the C2 witness. -/
def dC2 : PresentationDefinition :=
  { id := "defC2",
    version := PEVersion.v1,
    input_descriptors := [{ id := "d1", schema := [{ uri := "s1" }], constraints := none }] }

/-- Concrete credential list for the C2 witness. -/
def wvcsC2 : List Credential :=
  [{ context := CtxField.val (some "s1"),
     credentialSchema := SchemaField.absent,
     type := TypeField.absent }]

/-- Claim-side container rule written from the spec sentence: an object
container if the next segment is a string key, otherwise a single-element list
container. -/
def claimedContainerFor : Seg → JSON
  | Seg.str _ => JSON.obj []
  | Seg.num _ => JSON.arr [JSON.obj []]

/-- Claim-side segment walk written from the spec's words: the resolved leaf
value is written at the terminal segment, and for every non-terminal segment an
intermediate container chosen by `claimedContainerFor` from the next segment is
created at that key/index before descending. -/
def claimedCopySegs (objectCursor currentCursorInToSendObj : JSON) : List Seg → JSON
  | [] => currentCursorInToSendObj
  | [seg] => currentCursorInToSendObj.setSeg seg (objectCursor.getSeg seg)
  | seg :: next :: rest =>
      currentCursorInToSendObj.setSeg seg
        (claimedCopySegs (objectCursor.getSeg seg) (claimedContainerFor next) (next :: rest))

/-- Claim-side copy written from the spec's words: skip the leading root-marker
segment, then walk with the claimed container rule. -/
def claimedCopyResultPath (pathDetails : List Seg) (vc out : JSON) : JSON :=
  match pathDetails with
  | [] => out
  | _ :: rest => claimedCopySegs vc out rest

/-- Amended claim-side container rule: a single-element list container exactly
when the current segment is a string key and the next segment is not a string;
in all other cases (in particular whenever the current segment is a numeric
index) an object container. -/
def amendedContainerFor : Seg → Seg → JSON
  | Seg.str _, Seg.str _ => JSON.obj []
  | Seg.str _, Seg.num _ => JSON.arr [JSON.obj []]
  | Seg.num _, _ => JSON.obj []

/-- Amended claim-side segment walk: terminal segment written with the resolved
leaf value, non-terminal segments overwritten with the container chosen by
`amendedContainerFor` from the current and next segments, the cursor descending
onto the created container itself. -/
def amendedCopySegs (objectCursor currentCursorInToSendObj : JSON) : List Seg → JSON
  | [] => currentCursorInToSendObj
  | [seg] => currentCursorInToSendObj.setSeg seg (objectCursor.getSeg seg)
  | seg :: next :: rest =>
      currentCursorInToSendObj.setSeg seg
        (amendedCopySegs (objectCursor.getSeg seg) (amendedContainerFor seg next) (next :: rest))

/-- Amended claim-side copy: skip the leading root-marker segment, then walk
with the amended container rule. -/
def amendedCopyResultPath (pathDetails : List Seg) (vc out : JSON) : JSON :=
  match pathDetails with
  | [] => out
  | _ :: rest => amendedCopySegs vc out rest

/-- Concrete resolved path for the C3 counterexample: two consecutive numeric
segments (`$.a[0][0].x`). -/
def pdC3 : List Seg := [Seg.str "$", Seg.str "a", Seg.num 0, Seg.num 0, Seg.str "x"]

/-- Concrete source credential for the C3 counterexample: a doubly nested
array under `a`. -/
def vcC3 : JSON :=
  JSON.obj [("a", JSON.arr [JSON.arr [JSON.obj [("x", JSON.str "v")]]])]

/-- Concrete submission for the C5 witness: two entries matching `d1`, one
matching `d2`. -/
def subC5 : PresentationSubmission :=
  { id := "subid",
    definition_id := "defid",
    descriptor_map :=
      [{ id := "d1", format := "ldp_vc", path := "$[0]" },
       { id := "d2", format := "ldp_vc", path := "$[1]" },
       { id := "d1", format := "ldp_vc", path := "$[2]" }] }

/-- Concrete output presentation for the C5 witness. -/
def vpC5 : VerifiablePresentationState :=
  { verifiableCredential := some [JSON.str "orig"],
    presentationSubmission := some subC5 }

/-- Concrete disclosed object for the C5 witness. -/
def toSendC5 : JSON := JSON.obj [("id", JSON.str "disclosed")]

/-- Filtering the constant-WARN block leaves nothing when the filter keeps
non-WARN results. -/
theorem warn_filter_nil (l : List String) (i j : Nat) :
    ((l.filter containsHashlink).map (fun _ => createWarnResultObject i j)).filter
      (fun e => !(e.status == Status.warn)) = [] := by
  induction l.filter containsHashlink with
  | nil => rfl
  | cons a t ih => simp [createWarnResultObject, createResult]

/-- The boolean any-of-any match test of `evaluateUris` holds exactly when some
declared URI is string-equal to some extracted URI. -/
theorem any_pair_iff (vcUris : List (Option String)) (uris : List String) :
    (vcUris.any (fun u => uris.any (fun el => u == some el)) = true)
      ↔ ∃ el, el ∈ uris ∧ some el ∈ vcUris := by
  simp only [List.any_eq_true, beq_iff_eq]
  constructor
  · rintro ⟨u, hu, el, hel, rfl⟩
    exact ⟨el, hel, hu⟩
  · rintro ⟨el, hel, hmem⟩
    exact ⟨some el, hmem, el, hel, rfl⟩

/-- The v1 shape of one pair's results: the hashlink WARN block followed by the
single INFO/ERROR match result. -/
theorem uriPairResults_v1 (inDesc : InputDescriptor) (wvc : Credential) (i j : Nat) :
    uriPairResults PEVersion.v1 inDesc wvc i j
      = ((inDesc.schema.map SchemaObj.uri).filter containsHashlink).map
          (fun _ => createWarnResultObject i j)
        ++ (if (buildVcContextAndSchemaUris wvc).any
              (fun u => (inDesc.schema.map SchemaObj.uri).any (fun el => u == some el))
            then [createSuccessResultObject wvc (inDesc.schema.map SchemaObj.uri) i j]
            else [createErrorResultObject wvc (inDesc.schema.map SchemaObj.uri) i j]) := by
  rfl

/-- Claim C1: for every (descriptor, credential) pair, the handler appends exactly
one non-WARN match result: for v1 its status is INFO exactly when some URI
extracted from the credential is string-equal to some URI declared in the
descriptor's schema list and ERROR otherwise; for v2 its status is INFO
unconditionally. -/
theorem uri_pair_single_match_result (v : PEVersion) (inDesc : InputDescriptor)
    (wvc : Credential) (i j : Nat) :
    ∃ r, (uriPairResults v inDesc wvc i j).filter (fun e => !(e.status == Status.warn)) = [r]
      ∧ r.status = (match v with
          | PEVersion.v1 =>
              if (buildVcContextAndSchemaUris wvc).any
                  (fun u => (inDesc.schema.map SchemaObj.uri).any (fun el => u == some el))
                then Status.info else Status.error
          | PEVersion.v2 => Status.info)
      ∧ (((buildVcContextAndSchemaUris wvc).any
            (fun u => (inDesc.schema.map SchemaObj.uri).any (fun el => u == some el)) = true)
          ↔ ∃ el, el ∈ inDesc.schema.map SchemaObj.uri
              ∧ some el ∈ buildVcContextAndSchemaUris wvc) := by
  cases v with
  | v1 =>
      by_cases hM : ((buildVcContextAndSchemaUris wvc).any
          (fun u => (inDesc.schema.map SchemaObj.uri).any (fun el => u == some el))) = true
      · refine ⟨createSuccessResultObject wvc (inDesc.schema.map SchemaObj.uri) i j,
          ?_, ?_, any_pair_iff _ _⟩
        · rw [uriPairResults_v1, List.filter_append, warn_filter_nil, List.nil_append,
            if_pos hM]
          rfl
        · show (createSuccessResultObject wvc (inDesc.schema.map SchemaObj.uri) i j).status
            = if (buildVcContextAndSchemaUris wvc).any
                  (fun u => (inDesc.schema.map SchemaObj.uri).any (fun el => u == some el))
              then Status.info else Status.error
          rw [if_pos hM]
          rfl
      · refine ⟨createErrorResultObject wvc (inDesc.schema.map SchemaObj.uri) i j,
          ?_, ?_, any_pair_iff _ _⟩
        · rw [uriPairResults_v1, List.filter_append, warn_filter_nil, List.nil_append,
            if_neg hM]
          rfl
        · show (createErrorResultObject wvc (inDesc.schema.map SchemaObj.uri) i j).status
            = if (buildVcContextAndSchemaUris wvc).any
                  (fun u => (inDesc.schema.map SchemaObj.uri).any (fun el => u == some el))
              then Status.info else Status.error
          rw [if_neg hM]
          rfl
  | v2 =>
      refine ⟨createSuccessResultObject wvc (descriptorUris PEVersion.v2 inDesc) i j,
        rfl, rfl, any_pair_iff _ _⟩

/-- Claim C7 counterexample: at the concrete descriptor declaring the URI
`hl:zQmAbc:zQmXyz` the single WARN result's message is the URI-evaluation
did-not-pass constant, not the hashlink-verification-unsupported text (which
the source stores in the payload instead). -/
theorem uri_warn_message_counterexample :
    ((uriPairResults PEVersion.v1 inDescC7 wvcC7 0 0).filter
        (fun e => e.status == Status.warn)).map (fun e => e.message)
      = [some PexMessages.URI_EVALUATION_DIDNT_PASS]
    ∧ ((uriPairResults PEVersion.v1 inDescC7 wvcC7 0 0).filter
        (fun e => e.status == Status.warn)).map (fun e => e.payload)
      = [Payload.msg
          PexMessages.INPUT_DESCRIPTOR_CONTEXT_CONTAINS_HASHLINK_VERIFICATION_NOT_SUPPORTED]
    ∧ PexMessages.URI_EVALUATION_DIDNT_PASS
        ≠ PexMessages.INPUT_DESCRIPTOR_CONTEXT_CONTAINS_HASHLINK_VERIFICATION_NOT_SUPPORTED := by
  exact ⟨rfl, rfl, by decide⟩

/-- Claim C7 as amended: in v1, each declared URI matching either hashlink pattern
contributes exactly one WARN result (in declaration order, before the pair's
single INFO/ERROR match result, which it does not prevent); the WARN carries
the hashlink-verification-unsupported text in its payload, while its message
field holds the did-not-pass constant; and the URI `hl:zQmAbc:zQmXyz` matches
the encoded hashlink pattern. -/
theorem uri_warn_per_hashlink_amended (inDesc : InputDescriptor) (wvc : Credential)
    (i j : Nat) :
    uriPairResults PEVersion.v1 inDesc wvc i j
      = ((inDesc.schema.map SchemaObj.uri).filter containsHashlink).map
          (fun _ => createWarnResultObject i j)
        ++ (if (buildVcContextAndSchemaUris wvc).any
              (fun u => (inDesc.schema.map SchemaObj.uri).any (fun el => u == some el))
            then [createSuccessResultObject wvc (inDesc.schema.map SchemaObj.uri) i j]
            else [createErrorResultObject wvc (inDesc.schema.map SchemaObj.uri) i j])
    ∧ (createWarnResultObject i j).status = Status.warn
    ∧ (createWarnResultObject i j).payload
        = Payload.msg
            PexMessages.INPUT_DESCRIPTOR_CONTEXT_CONTAINS_HASHLINK_VERIFICATION_NOT_SUPPORTED
    ∧ (createWarnResultObject i j).message = some PexMessages.URI_EVALUATION_DIDNT_PASS
    ∧ containsHashlink "hl:zQmAbc:zQmXyz" = true := by
  refine ⟨?_, rfl, rfl, rfl, by decide⟩
  simp [uriPairResults, evaluateUris, descriptorUris]

/-- Claim C8 counterexample: for the concrete credential with an empty
`credentialSchema` list the source extraction appends an undefined id entry,
while the claimed order (which skips only an absent `credentialSchema`)
contributes no schema entry. -/
theorem uri_extraction_order_counterexample :
    buildVcContextAndSchemaUris cC8 = [some "ctx1", none]
    ∧ specExtractedUris cC8 = [some "ctx1"]
    ∧ buildVcContextAndSchemaUris cC8 ≠ specExtractedUris cC8 := by
  exact ⟨rfl, rfl, by decide⟩

/-- Claim C8 as amended: the extracted URI list is the `@context` values, then the
`credentialSchema` id entries (single object flattened, skipped if absent, and
an empty list contributing one undefined id entry), then the `type` values, in
this order with duplicates retained. -/
theorem uri_extraction_order_amended (c : Credential) :
    buildVcContextAndSchemaUris c = specExtractedUrisAmended c := by
  rcases c with ⟨ctx, cs, ty⟩
  cases cs with
  | arr l =>
      cases l <;> cases ctx <;> cases ty <;>
        simp [buildVcContextAndSchemaUris, specExtractedUrisAmended, specContextUris,
          specSchemaUrisAmended, specTypeUris]
  | obj s =>
      cases ctx <;> cases ty <;>
        simp [buildVcContextAndSchemaUris, specExtractedUrisAmended, specContextUris,
          specSchemaUrisAmended, specTypeUris]
  | absent =>
      cases ctx <;> cases ty <;>
        simp [buildVcContextAndSchemaUris, specExtractedUrisAmended, specContextUris,
          specSchemaUrisAmended, specTypeUris]

/-- Claim C10 counterexample: for the concrete credential whose `@context` is an
empty array (with `credentialSchema` and `type` absent) the extracted URI list
is empty, refuting that it always contains at least one element. -/
theorem uri_extraction_nonempty_counterexample :
    buildVcContextAndSchemaUris cC10 = []
    ∧ ¬ 1 ≤ (buildVcContextAndSchemaUris cC10).length := by
  exact ⟨rfl, by decide⟩

/-- Claim C10 as amended: a present-but-empty `credentialSchema` list is not skipped
and contributes one undefined id entry; an absent `@context` still contributes
one undefined entry; and the extracted URI list contains at least one element
whenever `@context` is not an array (an empty `@context` array can yield an
empty extraction). -/
theorem uri_extraction_empty_schema_amended (c : Credential) :
    (c.credentialSchema = SchemaField.arr [] →
       buildVcContextAndSchemaUris c
         = specContextUris c.context ++ [none] ++ specTypeUris c.type)
    ∧ (c.context = CtxField.val none →
       ∃ l, buildVcContextAndSchemaUris c = none :: l)
    ∧ (∀ v, c.context = CtxField.val v →
       1 ≤ (buildVcContextAndSchemaUris c).length) := by
  rcases c with ⟨ctx, cs, ty⟩
  refine ⟨?_, ?_, ?_⟩
  · intro h
    obtain rfl : cs = SchemaField.arr [] := h
    cases ctx <;> cases ty <;>
      simp [buildVcContextAndSchemaUris, specContextUris, specTypeUris]
  · intro h
    obtain rfl : ctx = CtxField.val none := h
    cases cs with
    | arr l => cases l <;> cases ty <;> simp [buildVcContextAndSchemaUris]
    | obj s => cases ty <;> simp [buildVcContextAndSchemaUris]
    | absent => cases ty <;> simp [buildVcContextAndSchemaUris]
  · intro v h
    obtain rfl : ctx = CtxField.val v := h
    cases cs with
    | arr l =>
        cases l <;> cases ty <;> simp [buildVcContextAndSchemaUris]
    | obj s => cases ty <;> simp [buildVcContextAndSchemaUris]
    | absent => cases ty <;> simp [buildVcContextAndSchemaUris]

/-- Witness for the amended C10 theorem at a concrete credential with
undefined `@context` and empty `credentialSchema` list. -/
theorem uri_extraction_empty_schema_amended_witness :
    (buildVcContextAndSchemaUris cC10w
       = specContextUris cC10w.context ++ [none] ++ specTypeUris cC10w.type)
    ∧ (∃ l, buildVcContextAndSchemaUris cC10w = none :: l)
    ∧ 1 ≤ (buildVcContextAndSchemaUris cC10w).length :=
  ⟨(uri_extraction_empty_schema_amended cC10w).1 rfl,
   (uri_extraction_empty_schema_amended cC10w).2.1 rfl,
   (uri_extraction_empty_schema_amended cC10w).2.2 none rfl⟩

/-- Every result of one pair carries the pair's descriptor index. -/
theorem mem_uriPairResults_idx (v : PEVersion) (inDesc : InputDescriptor) (wvc : Credential)
    (i j : Nat) (e : HandlerCheckResult) (he : e ∈ uriPairResults v inDesc wvc i j) :
    e.input_descriptor_idx = i := by
  unfold uriPairResults evaluateUris at he
  split at he
  · rcases List.mem_append.mp he with h | h
    · rcases List.mem_map.mp h with ⟨a, _, rfl⟩
      rfl
    · split at h <;> (simp only [List.mem_singleton] at h; subst h; rfl)
  · simp only [List.mem_singleton] at he
    subst he
    rfl

/-- Every result of the inner credential loop carries the loop's descriptor
index. -/
theorem mem_pairResultsOverVcs_idx (v : PEVersion) (inDesc : InputDescriptor) :
    ∀ (wvcs : List Credential) (i j : Nat) (e : HandlerCheckResult),
      e ∈ pairResultsOverVcs v inDesc wvcs i j → e.input_descriptor_idx = i := by
  intro wvcs
  induction wvcs with
  | nil =>
      intro i j e he
      exact absurd he (List.not_mem_nil e)
  | cons wvc rest ih =>
      intro i j e he
      simp only [pairResultsOverVcs] at he
      rcases List.mem_append.mp he with h | h
      · exact mem_uriPairResults_idx v inDesc wvc i j e h
      · exact ih i (j + 1) e h

/-- Every result of the outer descriptor loop carries a descriptor index below
the starting index plus the number of remaining descriptors. -/
theorem mem_pairResultsOverDescriptors_idx (v : PEVersion) (wvcs : List Credential) :
    ∀ (ds : List InputDescriptor) (i0 : Nat) (e : HandlerCheckResult),
      e ∈ pairResultsOverDescriptors v ds wvcs i0 →
        e.input_descriptor_idx < i0 + ds.length := by
  intro ds
  induction ds with
  | nil =>
      intro i0 e he
      exact absurd he (List.not_mem_nil e)
  | cons inDesc rest ih =>
      intro i0 e he
      simp only [pairResultsOverDescriptors] at he
      rcases List.mem_append.mp he with h | h
      · have hidx := mem_pairResultsOverVcs_idx v inDesc wvcs i0 0 e h
        simp only [List.length_cons]
        omega
      · have hidx := ih (i0 + 1) e h
        simp only [List.length_cons]
        omega

/-- In-range indices resolve. -/
theorem get?_isSome_of_lt {α : Type} (l : List α) (i : Nat) (h : i < l.length) :
    (l.get? i).isSome := by
  rw [List.get?_eq_get h]
  rfl

/-- Claim C2: after processing all pairs, the handler replaces the submission with a
freshly built one: its id is the fresh token, its definition id is copied from
the definition, and its `descriptor_map` has exactly one entry per INFO-status
result of the entire current result log, in log order, each entry carrying the
id of the descriptor resolved from the result's descriptor path, the constant
format `ldp_vc` and the result's credential path; every INFO entry's descriptor
path resolves (given that the initial log's INFO entries are in range). -/
theorem uri_handle_submission (d : PresentationDefinition) (wvcs : List Credential)
    (freshId : String) (s : UriEvalState)
    (h : ∀ e ∈ s.results, e.status = Status.info →
        e.input_descriptor_idx < d.input_descriptors.length) :
    ∃ sub, (uriHandle d wvcs freshId s).presentationSubmission = some sub
      ∧ sub.id = freshId
      ∧ sub.definition_id = d.id
      ∧ sub.descriptor_map
          = ((uriHandle d wvcs freshId s).results.filter
              (fun e => e.status == Status.info)).map (fun e =>
              { id := ((resolveInputDescriptorPath d e.input_descriptor_idx).map
                    InputDescriptor.id).getD "",
                format := "ldp_vc",
                path := e.verifiable_credential_path })
      ∧ ∀ e ∈ (uriHandle d wvcs freshId s).results.filter
            (fun e => e.status == Status.info),
          (resolveInputDescriptorPath d e.input_descriptor_idx).isSome := by
  refine ⟨_, rfl, rfl, rfl, rfl, ?_⟩
  intro e he
  have hmem : e ∈ (uriHandle d wvcs freshId s).results := List.mem_of_mem_filter he
  have hstat : e.status = Status.info := by
    have := List.of_mem_filter he
    simpa using this
  have hmem2 : e ∈ s.results
      ++ pairResultsOverDescriptors d.version d.input_descriptors wvcs 0 := hmem
  have hlt : e.input_descriptor_idx < d.input_descriptors.length := by
    rcases List.mem_append.mp hmem2 with h1 | h2
    · exact h e h1 hstat
    · have := mem_pairResultsOverDescriptors_idx d.version wvcs d.input_descriptors 0 e h2
      omega
  exact get?_isSome_of_lt d.input_descriptors e.input_descriptor_idx hlt

/-- Witness for the C2 theorem at a concrete definition, credential list and
empty initial log. -/
theorem uri_handle_submission_witness :
    ∃ sub, (uriHandle dC2 wvcsC2 "fresh" ⟨[], none⟩).presentationSubmission = some sub
      ∧ sub.id = "fresh"
      ∧ sub.definition_id = dC2.id
      ∧ sub.descriptor_map
          = ((uriHandle dC2 wvcsC2 "fresh" ⟨[], none⟩).results.filter
              (fun e => e.status == Status.info)).map (fun e =>
              { id := ((resolveInputDescriptorPath dC2 e.input_descriptor_idx).map
                    InputDescriptor.id).getD "",
                format := "ldp_vc",
                path := e.verifiable_credential_path })
      ∧ ∀ e ∈ (uriHandle dC2 wvcsC2 "fresh" ⟨[], none⟩).results.filter
            (fun e => e.status == Status.info),
          (resolveInputDescriptorPath dC2 e.input_descriptor_idx).isSome :=
  uri_handle_submission dC2 wvcsC2 "fresh" ⟨[], none⟩
    (by intro e he
        exact absurd he (List.not_mem_nil e))

/-- Claim C9: re-running the URI handler on an unchanged definition and credential
list, each run starting from a fresh empty log, yields submissions with
identical `descriptor_map` content and definition id; only the freshly
generated submission id may differ. -/
theorem uri_handle_idempotent (d : PresentationDefinition) (wvcs : List Credential)
    (freshId1 freshId2 : String) :
    ∃ sub1 sub2,
      (uriHandle d wvcs freshId1 ⟨[], none⟩).presentationSubmission = some sub1
      ∧ (uriHandle d wvcs freshId2 ⟨[], none⟩).presentationSubmission = some sub2
      ∧ sub1.descriptor_map = sub2.descriptor_map
      ∧ sub1.definition_id = sub2.definition_id := by
  exact ⟨_, _, rfl, rfl, rfl, rfl⟩

/-- Claim C3 counterexample: on the concrete path with two consecutive numeric
segments the source creates an object (with the stringified index as key) at
`a[0]`, while the claimed container rule creates a single-element list there,
so the copy differs from the claimed behavior at this explicit input. -/
theorem copy_container_rule_counterexample :
    JSON.ctorIdx (((copyResultPathToDestinationCredential pdC3 vcC3 (JSON.obj [])).getSeg
        (Seg.str "a")).getSeg (Seg.num 0)) = 6
    ∧ JSON.ctorIdx (((claimedCopyResultPath pdC3 vcC3 (JSON.obj [])).getSeg
        (Seg.str "a")).getSeg (Seg.num 0)) = 5
    ∧ copyResultPathToDestinationCredential pdC3 vcC3 (JSON.obj [])
        ≠ claimedCopyResultPath pdC3 vcC3 (JSON.obj []) := by
  refine ⟨rfl, rfl, fun hEq => ?_⟩
  have h65 : (6 : Nat) = 5 := by
    calc (6 : Nat)
        = JSON.ctorIdx (((copyResultPathToDestinationCredential pdC3 vcC3
            (JSON.obj [])).getSeg (Seg.str "a")).getSeg (Seg.num 0)) := rfl
      _ = JSON.ctorIdx (((claimedCopyResultPath pdC3 vcC3
            (JSON.obj [])).getSeg (Seg.str "a")).getSeg (Seg.num 0)) := by rw [hEq]
      _ = 5 := rfl
  exact absurd h65 (by decide)

/-- The source walk agrees with the amended claim-side walk on every input. -/
theorem copySegs_eq_amended (segs : List Seg) :
    ∀ (oc cur : JSON), copyResultPathSegs oc cur segs = amendedCopySegs oc cur segs := by
  induction segs with
  | nil =>
      intro oc cur
      rfl
  | cons seg rest ih =>
      intro oc cur
      cases rest with
      | nil => rfl
      | cons next t =>
          simp only [copyResultPathSegs, amendedCopySegs, ih]
          cases seg <;> cases next <;> rfl

/-- Claim C3 as amended: for every field only the first resulting path of its
resolution is used (the copy is invariant under truncating the resolver's
match list to its first element), the leading root-marker segment is skipped,
the resolved leaf value is written at the terminal segment, and containers for
non-terminal segments follow the amended rule (`amendedContainerFor`): a
single-element list only when a string-key segment is followed by a non-string
segment, an object container otherwise — in particular an object container even
between two numeric segments. -/
theorem copy_first_path_and_container_rule_amended :
    (∀ (extractInputField : JSON → List String → List (List Seg × JSON))
        (vc vcToSend : JSON) (fields : List Field) (idIdx vcIdx : Nat),
      determineNecessaryPaths extractInputField vc vcToSend fields idIdx vcIdx
        = determineNecessaryPaths (fun doc p => (extractInputField doc p).take 1)
            vc vcToSend fields idIdx vcIdx)
    ∧ (∀ (pathDetails : List Seg) (vc out : JSON),
      copyResultPathToDestinationCredential pathDetails vc out
        = amendedCopyResultPath pathDetails vc out) := by
  constructor
  · intro extractInputField vc vcToSend fields idIdx vcIdx
    induction fields generalizing vcToSend with
    | nil => rfl
    | cons f rest ih =>
        simp only [determineNecessaryPaths]
        cases hx : extractInputField vc f.path with
        | nil => simp only [List.take_nil, ih]
        | cons m t => simp only [List.take_succ_cons, List.take_zero, ih]
  · intro pathDetails vc out
    cases pathDetails with
    | nil => rfl
    | cons r rest => exact copySegs_eq_amended rest vc out

/-- Claim C4: the mandatory-field copy writes all five mandatory keys into the output
object, each carrying the source credential's value verbatim; a key absent from
the source is still written (with the undefined value the source read). -/
theorem mandatory_fields_written (vc : JSON) (keys : List String) (k : String)
    (hk : k ∈ mandatoryFields) :
    ((copyMandatoryFieldsAndDeletePredefinedKeys vc (JSON.obj []) keys).1.hasKey k = true)
    ∧ (copyMandatoryFieldsAndDeletePredefinedKeys vc (JSON.obj []) keys).1.getSeg (Seg.str k)
        = vc.getSeg (Seg.str k) := by
  simp only [mandatoryFields, List.mem_cons, List.not_mem_nil, or_false] at hk
  rcases hk with rfl | rfl | rfl | rfl | rfl <;> exact ⟨rfl, rfl⟩

/-- Witness for the C4 theorem: even for a source credential that is an empty
object, the key `id` is written into the output (carrying `undef`). -/
theorem mandatory_fields_written_witness :
    ((copyMandatoryFieldsAndDeletePredefinedKeys (JSON.obj []) (JSON.obj []) []).1.hasKey "id"
        = true)
    ∧ (copyMandatoryFieldsAndDeletePredefinedKeys (JSON.obj []) (JSON.obj []) []).1.getSeg
          (Seg.str "id")
        = (JSON.obj []).getSeg (Seg.str "id") :=
  mandatory_fields_written (JSON.obj []) [] "id" (by simp [mandatoryFields])

/-- Claim C5: when the output presentation carries a submission with a non-empty
descriptor map, registering a disclosed credential initializes the credential
list if absent and appends the disclosed object once per descriptor-map entry
whose id equals the current input descriptor's id; the existing credentials
keep their positions as a prefix and the submission is untouched. -/
theorem ld_append_per_matching_entry (vp : VerifiablePresentationState)
    (sub : PresentationSubmission) (toSend : JSON) (inputDescriptorId : String)
    (hsub : vp.presentationSubmission = some sub) (hne : sub.descriptor_map ≠ []) :
    (copyModifiedVerifiableCredentialToExisting vp toSend inputDescriptorId).verifiableCredential
      = some ((vp.verifiableCredential.getD [])
          ++ List.replicate
              ((sub.descriptor_map.filter (fun e => e.id == inputDescriptorId)).length)
              toSend)
    ∧ (copyModifiedVerifiableCredentialToExisting vp toSend
          inputDescriptorId).presentationSubmission
        = vp.presentationSubmission := by
  constructor
  · cases hvc : vp.verifiableCredential with
    | none =>
        simp [copyModifiedVerifiableCredentialToExisting, hsub, hvc, List.map_const']
    | some l =>
        simp [copyModifiedVerifiableCredentialToExisting, hsub, hvc, List.map_const']
  · rfl

/-- Witness for the C5 theorem at a concrete presentation: the disclosed object
is appended twice (two `d1` entries) after the original credential. -/
theorem ld_append_per_matching_entry_witness :
    (copyModifiedVerifiableCredentialToExisting vpC5 toSendC5 "d1").verifiableCredential
      = some ((vpC5.verifiableCredential.getD [])
          ++ List.replicate
              ((subC5.descriptor_map.filter (fun e => e.id == "d1")).length)
              toSendC5)
    ∧ (copyModifiedVerifiableCredentialToExisting vpC5 toSendC5 "d1").presentationSubmission
        = vpC5.presentationSubmission :=
  ld_append_per_matching_entry vpC5 subC5 toSendC5 "d1" rfl (by decide)

/-- Claim C6: the field walk records, in field order, exactly one result per field —
an ERROR result with the mandatory-field-not-present message and the field's
originally requested path as payload when the field's path expressions yield no
match, and an INFO result otherwise — and, being a total function of its
inputs, always completes the iteration without aborting. -/
theorem fields_without_match_error
    (extractInputField : JSON → List String → List (List Seg × JSON))
    (vc vcToSend : JSON) (fields : List Field) (idIdx vcIdx : Nat) :
    (determineNecessaryPaths extractInputField vc vcToSend fields idIdx vcIdx).2
      = fields.map (fun field =>
          match extractInputField vc field.path with
          | [] => createMandatoryFieldNotFoundResult idIdx vcIdx field.path
          | m :: _ => createSuccessResult idIdx vcIdx m.1)
    ∧ ∀ p, (createMandatoryFieldNotFoundResult idIdx vcIdx p).status = Status.error
        ∧ (createMandatoryFieldNotFoundResult idIdx vcIdx p).payload = Payload.pathExprs p
        ∧ (createMandatoryFieldNotFoundResult idIdx vcIdx p).message
            = some "mandatory field not present in the verifiableCredential" := by
  constructor
  · induction fields generalizing vcToSend with
    | nil => rfl
    | cons f rest ih =>
        simp only [determineNecessaryPaths, List.map]
        cases hx : extractInputField vc f.path with
        | nil => simp only [ih]
        | cons m t => simp only [ih]
  · intro p
    exact ⟨rfl, rfl, rfl⟩

end Pex
